import Mathlib

/-!
Verification of the Canvas Document Engine of the `poentry` digital-journal
application.  The definitions below are a shallow embedding of the relevant
parts of `src/poentry/src/DigitalJournal.jsx` (and, where noted, of
`src/poentry/server.js`).  Geometry is modelled with rational numbers;
JavaScript `Math.round` / `Math.max` semantics are made explicit.
-/

namespace Journal

/-- Grid step used by the canvas (`GRID_SIZE = 30` in `DigitalJournal.jsx`). -/
def GRID_SIZE : ℚ := 30

/-- Page margin (`PAGE_MARGIN = 40` in `DigitalJournal.jsx`). -/
def PAGE_MARGIN : ℚ := 40

/-- JavaScript `Math.round`: rounds half-up, i.e. `⌊x + 1/2⌋`. -/
def jsRound (q : ℚ) : ℤ := ⌊q + 1/2⌋

/-- One grid-snapped coordinate: `Math.round(p / GRID_SIZE) * GRID_SIZE`
(from the `object:moving` handler). -/
def snap (p : ℚ) : ℚ := (jsRound (p / GRID_SIZE) : ℚ) * GRID_SIZE

/-- A canvas object as it appears both live on the canvas and in the
serialized JSON blob.  The fields are exactly those the engine reads:
the fabric `type` tag (lower-case), geometry, the interactivity flags the
legacy-page detector inspects, and the custom properties propagated through
`canvas.toJSON([...])` (`_isPageBg`, `_isAudio`, `audioId`, `_overlayId`,
`_lockedWidth`). -/
structure JObj where
  type : String
  left : ℚ
  top : ℚ
  width : ℚ
  selectable : Bool := true
  evented : Bool := true
  isPageBg : Bool := false
  isAudio : Bool := false
  audioId : Option ℕ := none
  overlayId : Option ℕ := none
  lockedWidth : Option ℚ := none
deriving DecidableEq, Repr

/-- The `object:moving` handler: page background is left alone, every other
object has both axes snapped to the grid on every move. -/
def movingHandler (o : JObj) : JObj :=
  if o.isPageBg then o
  else { o with left := snap o.left, top := snap o.top }

theorem snap_fixed (k : ℤ) : snap ((k : ℚ) * GRID_SIZE) = (k : ℚ) * GRID_SIZE := by
  have h30 : ((k : ℚ) * GRID_SIZE) / GRID_SIZE = (k : ℚ) := by
    rw [mul_div_assoc, div_self (by norm_num [GRID_SIZE]), mul_one]
  have hfloor : jsRound (k : ℚ) = k := by
    unfold jsRound
    rw [add_comm, Int.floor_add_int]
    norm_num
  unfold snap
  rw [h30, hfloor]

theorem snap_idem (p : ℚ) : snap (snap p) = snap p :=
  snap_fixed (jsRound (p / GRID_SIZE))

theorem snap_eval (p : ℚ) (k : ℤ) (h1 : (k : ℚ) ≤ p / GRID_SIZE + 1/2)
    (h2 : p / GRID_SIZE + 1/2 < k + 1) : snap p = (k : ℚ) * GRID_SIZE := by
  unfold snap jsRound
  rw [Int.floor_eq_iff.mpr ⟨h1, h2⟩]

/-- C4: the grid-snap applied on every move (`object:moving` handler) is
idempotent — `snap (snap p) = snap p` for all positions, x and y rounded
independently to the nearest multiple of the grid step — and a move to
(200, 100) with grid step 30 snaps to (210, 90). -/
theorem grid_snap_idempotent :
    (∀ p : ℚ, snap (snap p) = snap p) ∧
    (∀ o : JObj, movingHandler (movingHandler o) = movingHandler o) ∧
    movingHandler { type := "textbox", left := 200, top := 100, width := 240 } =
      { type := "textbox", left := 210, top := 90, width := 240 } := by
  refine ⟨snap_idem, ?_, ?_⟩
  · intro o
    unfold movingHandler
    by_cases h : o.isPageBg <;> simp [h, snap_idem]
  · have h1 : snap 200 = 210 := by
      have := snap_eval 200 7 (by norm_num [GRID_SIZE]) (by norm_num [GRID_SIZE])
      rw [this]; norm_num [GRID_SIZE]
    have h2 : snap 100 = 90 := by
      have := snap_eval 100 3 (by norm_num [GRID_SIZE]) (by norm_num [GRID_SIZE])
      rw [this]; norm_num [GRID_SIZE]
    simp [movingHandler, h1, h2]

/-! ### Textbox width lock (`applyTextboxOverrides`, lines 892-907) -/

/-- Live state of a fabric textbox, restricted to the fields read and written
by `applyTextboxOverrides` and the resize handlers: geometry, text content,
editing flag, the custom `_lockedWidth` override (always set once
`applyTextboxOverrides` has run), the scale factors baked away by the
`object:scaling` handler, and the transient `_anchorTop` set by
`before:transform`. -/
structure Textbox where
  width : ℚ
  height : ℚ
  top : ℚ
  text : List Char
  isEditing : Bool
  lockedWidth : ℚ
  scaleX : ℚ := 1
  scaleY : ℚ := 1
  anchorTop : Option ℚ := none
deriving DecidableEq, Repr

/-- Geometry written back by the rendering library's own layout pass
(`initDimensions` of the library): it recomputes width, height and possibly
top from the box it is given, and touches nothing else — in particular it
knows nothing of the custom `_lockedWidth` field. -/
structure LibDims where
  width : ℚ
  height : ℚ
  top : ℚ
deriving DecidableEq, Repr

/-- A library layout pass: reads the box, produces new geometry. -/
def OrigInit : Type := Textbox → LibDims

/-- Running the library layout pass `_origInit` on a box: only the geometry
fields change. -/
def applyOrig (f : OrigInit) (tb : Textbox) : Textbox :=
  let d := f tb
  { tb with width := d.width, height := d.height, top := d.top }

/-- The overriding `initDimensions` installed by `applyTextboxOverrides`:
saves `top`; while editing it pins `width` to `_lockedWidth` around the
original layout pass; otherwise it runs the original pass and re-syncs
`_lockedWidth` to the resulting (measured) width; finally restores `top`. -/
def initDimensions (f : OrigInit) (tb : Textbox) : Textbox :=
  let savedTop := tb.top
  let tb' :=
    if tb.isEditing then
      let a := applyOrig f { tb with width := tb.lockedWidth }
      { a with width := tb.lockedWidth }
    else
      let a := applyOrig f tb
      { a with lockedWidth := a.width }
  { tb' with top := savedTop }

/-- Typing one character at caret position `i`: the text mutates, then the
(overridden) layout pass reruns. -/
def insertChar (f : OrigInit) (tb : Textbox) (p : ℕ × Char) : Textbox :=
  initDimensions f { tb with text := tb.text.take p.1 ++ [p.2] ++ tb.text.drop p.1 }

/-- A whole burst of typing: characters inserted one at a time. -/
def insertChars (f : OrigInit) (tb : Textbox) (ins : List (ℕ × Char)) : Textbox :=
  ins.foldl (insertChar f) tb

theorem initDimensions_editing (f : OrigInit) (tb : Textbox) (h : tb.isEditing = true) :
    (initDimensions f tb).width = tb.lockedWidth ∧
    (initDimensions f tb).lockedWidth = tb.lockedWidth ∧
    (initDimensions f tb).isEditing = true ∧
    (initDimensions f tb).top = tb.top := by
  simp [initDimensions, applyOrig, h]

theorem insertChar_editing (f : OrigInit) (tb : Textbox) (p : ℕ × Char)
    (h : tb.isEditing = true) :
    (insertChar f tb p).width = tb.lockedWidth ∧
    (insertChar f tb p).lockedWidth = tb.lockedWidth ∧
    (insertChar f tb p).isEditing = true := by
  simp [insertChar, initDimensions, applyOrig, h]

theorem insertChars_editing (f : OrigInit) (ins : List (ℕ × Char)) (tb : Textbox)
    (h : tb.isEditing = true) :
    (insertChars f tb ins).lockedWidth = tb.lockedWidth ∧
    (insertChars f tb ins).isEditing = true ∧
    (ins ≠ [] → (insertChars f tb ins).width = tb.lockedWidth) := by
  induction ins generalizing tb with
  | nil => simp [insertChars, h]
  | cons p rest ih =>
    obtain ⟨hw, hl, he⟩ := insertChar_editing f tb p h
    have := ih (insertChar f tb p) he
    refine ⟨by rw [insertChars, List.foldl_cons, ← insertChars, this.1, hl], ?_, ?_⟩
    · rw [insertChars, List.foldl_cons, ← insertChars]; exact this.2.1
    · intro _
      rw [insertChars, List.foldl_cons, ← insertChars]
      rcases rest with _ | ⟨q, rest'⟩
      · simpa [insertChars] using hw
      · rw [this.2.2 (by simp), hl]

/-- C1: while a textbox is editing with locked width `W`, any layout
recomputation — in particular any burst of character insertions — leaves the
wrap width and the locked width equal to `W`; the locked width is re-synced
to the measured width only in the non-editing branch of the override. -/
theorem locked_width_stable_under_typing (f : OrigInit) (tb : Textbox) (W : ℚ)
    (hE : tb.isEditing = true) (hW : tb.lockedWidth = W) :
    ((initDimensions f tb).width = W ∧ (initDimensions f tb).lockedWidth = W) ∧
    (∀ ins : List (ℕ × Char),
      (insertChars f tb ins).lockedWidth = W ∧
      (ins ≠ [] → (insertChars f tb ins).width = W)) := by
  obtain ⟨h1, h2, _, _⟩ := initDimensions_editing f tb hE
  refine ⟨⟨hW ▸ h1, hW ▸ h2⟩, fun ins => ?_⟩
  obtain ⟨g1, _, g3⟩ := insertChars_editing f ins tb hE
  exact ⟨hW ▸ g1, fun hne => hW ▸ g3 hne⟩

/-- A concrete witness for C1: a box editing at locked width 240 with a
layout pass that would regrow the width to the single-line measure; typing
three characters leaves the wrap width at 240. -/
theorem locked_width_stable_under_typing_witness :
    (let f : OrigInit := fun tb => { width := 20 * tb.text.length, height := 26, top := tb.top }
     let tb : Textbox := { width := 240, height := 26, top := 90, text := [],
                           isEditing := true, lockedWidth := 240 }
     (insertChars f tb [(0, 'H'), (1, 'i'), (2, '!')]).width = 240 ∧
     (insertChars f tb [(0, 'H'), (1, 'i'), (2, '!')]).lockedWidth = 240) := by
  refine ⟨?_, ?_⟩
  · exact (locked_width_stable_under_typing _ _ 240 rfl rfl).2 _ |>.2 (by simp)
  · exact (locked_width_stable_under_typing _ _ 240 rfl rfl).2 _ |>.1

/-! ### Resize gesture (`before:transform` / `object:scaling` / `object:scaled`
handlers, lines 1101-1121) -/

/-- `before:transform` on a textbox: remember the current top as `_anchorTop`. -/
def beforeTransform (tb : Textbox) : Textbox :=
  { tb with anchorTop := some tb.top }

/-- `object:scaling` on a textbox: bake the scale factor into the width,
clamped below by 20, record it as the locked width, rerun the (overridden)
layout pass, and restore the anchored top. -/
def objectScaling (f : OrigInit) (tb : Textbox) : Textbox :=
  let newWidth := max (tb.width * tb.scaleX) 20
  let tb1 : Textbox := { tb with lockedWidth := newWidth, width := newWidth,
                                 scaleX := 1, scaleY := 1 }
  let tb2 := initDimensions f tb1
  match tb2.anchorTop with
  | some a => { tb2 with top := a }
  | none => tb2

/-- `object:scaled` on a textbox: discard the transient anchor. -/
def objectScaled (tb : Textbox) : Textbox :=
  { tb with anchorTop := none }

/-- One complete resize gesture on a textbox. -/
def resizeGesture (f : OrigInit) (tb : Textbox) : Textbox :=
  objectScaled (objectScaling f (beforeTransform tb))

/-- C2: after a resize gesture whose requested width is `w = width * scaleX`,
the width and the locked width both equal `max w 20` (the fixed minimum
floor 20 of the code), and the top y-coordinate is unchanged from before the
gesture.  The hypothesis states that the library layout pass only reflows
(it never changes the wrap width it is handed — growth or shrinkage shows up
in the height only), which is what the engine relies on. -/
theorem resize_clamps_width_and_anchors_top (f : OrigInit) (tb : Textbox)
    (hf : ∀ s, (f s).width = s.width) :
    (resizeGesture f tb).width = max (tb.width * tb.scaleX) 20 ∧
    (resizeGesture f tb).lockedWidth = max (tb.width * tb.scaleX) 20 ∧
    (resizeGesture f tb).top = tb.top := by
  unfold resizeGesture objectScaling beforeTransform objectScaled
  by_cases h : tb.isEditing <;>
    simp [initDimensions, applyOrig, h, hf]

/-- A concrete witness for C2: resizing a 240-wide box by a factor 1/24
requests width 10, which clamps to the floor 20; the top stays at 90. -/
theorem resize_clamps_width_and_anchors_top_witness :
    (let f : OrigInit := fun tb => { width := tb.width, height := 26 * (tb.text.length + 1), top := 0 }
     let tb : Textbox := { width := 240, height := 26, top := 90, text := ['H', 'i'],
                           isEditing := false, lockedWidth := 240, scaleX := 1/24 }
     (resizeGesture f tb).width = 20 ∧
     (resizeGesture f tb).lockedWidth = 20 ∧
     (resizeGesture f tb).top = 90) := by
  have h := resize_clamps_width_and_anchors_top
    (fun tb => { width := tb.width, height := 26 * (tb.text.length + 1), top := 0 })
    { width := 240, height := 26, top := 90, text := ['H', 'i'],
      isEditing := false, lockedWidth := 240, scaleX := 1/24 }
    (fun _ => rfl)
  have hmax : max ((240 : ℚ) * (1/24)) 20 = 20 := by norm_num
  exact ⟨by rw [h.1]; exact_mod_cast hmax, by rw [h.2.1]; exact_mod_cast hmax, h.2.2⟩

/-! ### Per-character styling (`applyStyle`, lines 1185-1250) -/

/-- One key of a fabric character-style object: the toolbar only ever writes
these six properties.  `none` models an absent key. -/
structure CharStyle where
  fontFamily : Option String := none
  fontSize : Option ℕ := none
  fontWeight : Option String := none
  fontStyle : Option String := none
  underline : Option Bool := none
  linethrough : Option Bool := none
deriving DecidableEq, Repr

/-- JavaScript object-spread on one key: a key present in the delta replaces
the existing value, an absent key keeps it. -/
def coverKey {α : Type} (existing delta : Option α) : Option α :=
  match delta with
  | some v => some v
  | none => existing

/-- JavaScript spread of the delta over the existing style object. -/
def CharStyle.merge (existing delta : CharStyle) : CharStyle where
  fontFamily := coverKey existing.fontFamily delta.fontFamily
  fontSize := coverKey existing.fontSize delta.fontSize
  fontWeight := coverKey existing.fontWeight delta.fontWeight
  fontStyle := coverKey existing.fontStyle delta.fontStyle
  underline := coverKey existing.underline delta.underline
  linethrough := coverKey existing.linethrough delta.linethrough

theorem CharStyle.merge_empty (s : CharStyle) : CharStyle.merge s {} = s := rfl

/-- One iteration of the `applyStyle` range loop:
`setSelectionStyles(merge of the existing style at i and the delta, i, i+1)`,
where a character with no style entry contributes the empty object. -/
def styleStep (delta : CharStyle) (acc : List CharStyle) (i : ℕ) : List CharStyle :=
  acc.set i (CharStyle.merge (acc.getD i {}) delta)

/-- The `applyStyle` loop `for i = start; i < stop; i++` over the flattened
per-character style list of a textbox. -/
def applyStyleRange (cs : List CharStyle) (delta : CharStyle) (start stop : ℕ) :
    List CharStyle :=
  (List.range' start (stop - start)).foldl (styleStep delta) cs

theorem styleStep_length (delta : CharStyle) (cs : List CharStyle) (i : ℕ) :
    (styleStep delta cs i).length = cs.length := by
  simp [styleStep]

theorem applyRange_foldl_length (delta : CharStyle) (n : ℕ) :
    ∀ (start : ℕ) (cs : List CharStyle),
      ((List.range' start n).foldl (styleStep delta) cs).length = cs.length := by
  induction n with
  | zero => intro start cs; rfl
  | succ n ih =>
    intro start cs
    rw [List.range'_succ, List.foldl_cons, ih, styleStep_length]

theorem applyRange_foldl_getD (delta : CharStyle) (n : ℕ) :
    ∀ (start : ℕ) (cs : List CharStyle) (j : ℕ), j < cs.length →
      ((List.range' start n).foldl (styleStep delta) cs).getD j {} =
        if start ≤ j ∧ j < start + n then CharStyle.merge (cs.getD j {}) delta
        else cs.getD j {} := by
  induction n with
  | zero =>
    intro start cs j hj
    have : ¬ (start ≤ j ∧ j < start + 0) := by omega
    rw [if_neg this]
    rfl
  | succ n ih =>
    intro start cs j hj
    rw [List.range'_succ, List.foldl_cons]
    rw [ih (start + 1) _ j (by rw [styleStep_length]; exact hj)]
    by_cases hjs : j = start
    · subst hjs
      have h1 : ¬ (j + 1 ≤ j ∧ j < j + 1 + n) := by omega
      have h2 : j ≤ j ∧ j < j + (n + 1) := by omega
      rw [if_neg h1, if_pos h2]
      simp [styleStep, List.getD_eq_getElem?_getD, List.getElem?_set_self, hj]
    · have hne : start ≠ j := fun h => hjs h.symm
      have hstep : (styleStep delta cs start).getD j {} = cs.getD j {} := by
        simp [styleStep, List.getD_eq_getElem?_getD, List.getElem?_set_ne hne]
      rw [hstep]
      by_cases hr : start ≤ j ∧ j < start + (n + 1)
      · rw [if_pos (by omega), if_pos hr]
      · rw [if_neg (by omega), if_neg hr]

/-- The italic override sitting on range [3,4) in the C3 example. -/
def exInit : List CharStyle := [{}, {}, {}, { fontStyle := some "italic" }, {}]

/-- The bold delta of the C3 example. -/
def exBold : CharStyle := { fontWeight := some "bold" }

/-- C3: the range loop of `applyStyle` merges the delta into each character's
existing style over the half-open range (delta keys override, other keys are
kept), leaves characters outside the range unchanged, and in particular
applying bold to [2,5) over an italic [3,4) yields both properties on [3,4)
and bold alone on [2,3) and [4,5). -/
theorem style_range_merge :
    (∀ (cs : List CharStyle) (delta : CharStyle) (start stop : ℕ),
        (applyStyleRange cs delta start stop).length = cs.length) ∧
    (∀ (cs : List CharStyle) (delta : CharStyle) (start stop j : ℕ), j < cs.length →
        (applyStyleRange cs delta start stop).getD j {} =
          if start ≤ j ∧ j < stop then CharStyle.merge (cs.getD j {}) delta
          else cs.getD j {}) ∧
    applyStyleRange exInit exBold 2 5 =
      [{}, {},
       { fontWeight := some "bold" },
       { fontWeight := some "bold", fontStyle := some "italic" },
       { fontWeight := some "bold" }] := by
  refine ⟨fun cs delta start stop => applyRange_foldl_length delta _ start cs,
          fun cs delta start stop j hj => ?_, by decide⟩
  rw [applyStyleRange, applyRange_foldl_getD delta _ start cs j hj]
  by_cases hr : start ≤ j ∧ j < stop
  · rw [if_pos (by omega), if_pos hr]
  · rw [if_neg (by omega), if_neg hr]

/-- A concrete instantiation of the range-merge characterization at index 3
of the C3 example. -/
theorem style_range_merge_witness :
    (applyStyleRange exInit exBold 2 5).getD 3 {} =
      if 2 ≤ 3 ∧ 3 < 5 then CharStyle.merge (exInit.getD 3 {}) exBold
      else exInit.getD 3 {} :=
  style_range_merge.2.1 exInit exBold 2 5 3 (by decide)

/-- Style-relevant state of a textbox: editing flag, live selection bounds,
the flattened per-character style entries (one per character of the text),
and the object-level formatting props (`tb.fontWeight`, `tb.fontStyle`, …)
that act as the box default. -/
structure TBStyles where
  isEditing : Bool
  selStart : ℕ
  selEnd : ℕ
  charStyles : List CharStyle
  boxStyle : CharStyle
deriving DecidableEq, Repr

/-- `applyStyle` (lines 1185-1250), restricted to its effect on style state:
the target range comes from the live selection while editing and from the
cached `lastSelRef` range otherwise; a proper range gets the per-character
merge loop (entering editing and restoring the selection first); an empty
range merges the delta into the object-level props (`Object.assign` while
editing, `tb.set` otherwise — both spread the delta over the existing
props). -/
def applyStyle (tb : TBStyles) (lastSel : ℕ × ℕ) (delta : CharStyle) : TBStyles :=
  let start := if tb.isEditing then tb.selStart else lastSel.1
  let stop := if tb.isEditing then tb.selEnd else lastSel.2
  if start ≠ stop then
    { tb with isEditing := true, selStart := start, selEnd := stop,
              charStyles := applyStyleRange tb.charStyles delta start stop }
  else
    { tb with boxStyle := CharStyle.merge tb.boxStyle delta }

/-- Modelled from the spec: how the rendering library styles a newly typed
character is outside this repository; per the spec the pending delta
"is applied to the next inserted character and merged into the box's default
style", i.e. a newly inserted character carries no per-character override of
its own and therefore inherits the box-level default props. -/
def insertStyledChar (tb : TBStyles) (i : ℕ) : TBStyles :=
  { tb with charStyles := tb.charStyles.take i ++ {} :: tb.charStyles.drop i }

/-- The style a character renders with: its per-character entry spread over
the box-level default props. -/
def effectiveStyle (tb : TBStyles) (i : ℕ) : CharStyle :=
  CharStyle.merge tb.boxStyle (tb.charStyles.getD i {})

/-- C7: applying a delta at an active caret with empty selection while
editing merges the delta into the box default style, changes no existing
character's style, and the next character inserted at the caret renders with
the merged default. -/
theorem caret_pending_style (tb : TBStyles) (lastSel : ℕ × ℕ) (delta : CharStyle)
    (hE : tb.isEditing = true) (hSel : tb.selStart = tb.selEnd)
    (hLen : tb.selStart ≤ tb.charStyles.length) :
    (applyStyle tb lastSel delta).charStyles = tb.charStyles ∧
    (applyStyle tb lastSel delta).boxStyle = CharStyle.merge tb.boxStyle delta ∧
    effectiveStyle (insertStyledChar (applyStyle tb lastSel delta) tb.selStart) tb.selStart =
      CharStyle.merge tb.boxStyle delta := by
  have happ : applyStyle tb lastSel delta =
      { tb with boxStyle := CharStyle.merge tb.boxStyle delta } := by
    simp [applyStyle, hE, hSel]
  refine ⟨by rw [happ], by rw [happ], ?_⟩
  rw [happ]
  unfold effectiveStyle insertStyledChar
  have hchar : ((tb.charStyles.take tb.selStart ++ {} :: tb.charStyles.drop tb.selStart) :
      List CharStyle).getD tb.selStart {} = {} := by
    have hta : (tb.charStyles.take tb.selStart).length = tb.selStart := by
      simp [hLen]
    rw [List.getD_eq_getElem?_getD, List.getElem?_append_right (le_of_eq hta),
        hta, Nat.sub_self]
    simp
  simp only [hchar]
  exact CharStyle.merge_empty _

/-- A concrete witness for C7: caret at position 1 of a two-character box;
applying bold changes only the default props, and the next typed character
renders bold. -/
theorem caret_pending_style_witness :
    (let tb : TBStyles := { isEditing := true, selStart := 1, selEnd := 1,
                            charStyles := [{ fontStyle := some "italic" }, {}],
                            boxStyle := { fontSize := some 20 } }
     let delta : CharStyle := { fontWeight := some "bold" }
     (applyStyle tb (0, 0) delta).charStyles = tb.charStyles ∧
     (applyStyle tb (0, 0) delta).boxStyle = CharStyle.merge tb.boxStyle delta ∧
     effectiveStyle (insertStyledChar (applyStyle tb (0, 0) delta) 1) 1 =
       CharStyle.merge tb.boxStyle delta) :=
  caret_pending_style _ (0, 0) _ rfl rfl (by decide)

/-! ### Serialization and load (`saveCanvas` lines 910-932, `loadCanvas`
lines 935-1011) -/

/-- The body of the debounced save: `canvas.toJSON([...])` keeps the custom
properties carried by `JObj`, and the page background rect is filtered out
of the serialized blob. -/
def saveBlob (objs : List JObj) : List JObj :=
  objs.filter (fun o => !o.isPageBg)

/-- JavaScript `toLowerCase` on the ASCII type tags involved: lower-case
every character. -/
def jsLower (s : String) : String := ⟨s.data.map Char.toLower⟩

/-- The legacy-page detector of `loadCanvas`: an object is treated as a page
rect when it carries `_isPageBg`, or when it is a non-selectable non-evented
rect. -/
def isPageRect (o : JObj) : Bool :=
  o.isPageBg || (jsLower o.type == "rect" && !o.selectable && !o.evented)

/-- The filter pass of `loadCanvas` (lines 943-958): drop every page rect
from the blob, remembering the left/top of the first one encountered. -/
def scanPages : List JObj → Option (ℚ × ℚ) × List JObj
  | [] => (none, [])
  | o :: rest =>
    if isPageRect o then (some (o.left, o.top), (scanPages rest).2)
    else ((scanPages rest).1, o :: (scanPages rest).2)

/-- Uniform translation of one object. -/
def translate (dx dy : ℚ) (o : JObj) : JObj :=
  { o with left := o.left + dx, top := o.top + dy }

/-- The coordinate-migration pass of `loadCanvas` (lines 943-967): if a
legacy page rect was found and its left differs from the current
`PAGE_MARGIN`, shift every remaining object by the single delta
`(PAGE_MARGIN - oldPageLeft, PAGE_MARGIN - oldPageTop)`. -/
def loadMigrate (blob : List JObj) : List JObj :=
  match scanPages blob with
  | (some (l, t), rest) =>
    if l ≠ PAGE_MARGIN then rest.map (translate (PAGE_MARGIN - l) (PAGE_MARGIN - t))
    else rest
  | (none, rest) => rest

/-- JavaScript `a || b` on a possibly-absent number: `undefined` and `0` are
falsy. -/
def jsOrQ : Option ℚ → ℚ → ℚ
  | some v, w => if v = 0 then w else v
  | none, w => w

/-- JavaScript truthiness of a possibly-absent numeric id. -/
def jsTruthyNat : Option ℕ → Bool
  | some n => n != 0
  | none => false

/-- Re-applying `applyTextboxOverrides` to every loaded textbox (line 893):
`tb._lockedWidth = tb._lockedWidth || tb.width`. -/
def applyLoadOverrides (o : JObj) : JObj :=
  if o.type == "textbox" then { o with lockedWidth := some (jsOrQ o.lockedWidth o.width) }
  else o

/-- The audio-restore pass of `loadCanvas` (lines 973-999): for every loaded
object flagged `_isAudio` with a truthy `audioId`, ask the persistence
collaborator for the payload; failed fetches yield `null` and are filtered
out of the session-audio list, keyed by `_overlayId`. -/
def loadOverlays (resolver : ℕ → Option String) (objs : List JObj) :
    List (Option ℕ × String) :=
  objs.filterMap fun o =>
    if o.isAudio && jsTruthyNat o.audioId then
      match o.audioId with
      | some i => (resolver i).map (fun url => (o.overlayId, url))
      | none => none
    else none

/-- `loadCanvas`: an empty blob returns early with the canvas untouched
(just the live page rect); otherwise the blob is migrated, loaded, the
textbox overrides re-applied, the audio overlays resolved, and the live page
rect re-added at the back of the z-order. -/
def loadCanvas (resolver : ℕ → Option String) (page : JObj) (blob : List JObj) :
    List JObj × List (Option ℕ × String) :=
  if blob.isEmpty then ([page], [])
  else
    let objs := (loadMigrate blob).map applyLoadOverrides
    (page :: objs, loadOverlays resolver objs)

/-- C5: for a document holding one textbox, one image and one audio anchor
behind the live page rect, the serialized blob contains no page background,
and loading the blob restores exactly the same elements — same count, same
variant types, same positions, same textbox locked width — with the live
page decoration re-added at the back. -/
theorem serialize_load_round_trip (resolver : ℕ → Option String)
    (page tb img au : JObj) (W : ℚ)
    (hpage : page.isPageBg = true)
    (htb : tb.type = "textbox") (htbBg : tb.isPageBg = false)
    (hlw : tb.lockedWidth = some W) (hW : W ≠ 0)
    (himg : img.type = "image") (himgBg : img.isPageBg = false)
    (hau : au.type = "rect") (hauSel : au.selectable = true) (hauBg : au.isPageBg = false) :
    saveBlob [page, tb, img, au] = [tb, img, au] ∧
    (∀ o ∈ saveBlob [page, tb, img, au], o.isPageBg = false) ∧
    (loadCanvas resolver page (saveBlob [page, tb, img, au])).1 = [page, tb, img, au] := by
  have e1 : (jsLower "textbox" == "rect") = false := by decide
  have e2 : (jsLower "image" == "rect") = false := by decide
  have e3 : (jsLower "rect" == "rect") = true := by decide
  have hsave : saveBlob [page, tb, img, au] = [tb, img, au] := by
    simp [saveBlob, hpage, htbBg, himgBg, hauBg]
  have p1 : isPageRect tb = false := by simp [isPageRect, htbBg, htb, e1]
  have p2 : isPageRect img = false := by simp [isPageRect, himgBg, himg, e2]
  have p3 : isPageRect au = false := by simp [isPageRect, hauBg, hau, e3, hauSel]
  have hscan : scanPages [tb, img, au] = (none, [tb, img, au]) := by
    simp [scanPages, p1, p2, p3]
  have a1 : applyLoadOverrides tb = tb := by
    have ht : (tb.type == "textbox") = true := by rw [htb]; decide
    simp only [applyLoadOverrides, ht, if_true, hlw]
    have hjs : jsOrQ (some W) tb.width = W := by simp [jsOrQ, hW]
    rw [hjs, ← hlw]
  have a2 : applyLoadOverrides img = img := by
    have : (img.type == "textbox") = false := by rw [himg]; decide
    simp [applyLoadOverrides, this]
  have a3 : applyLoadOverrides au = au := by
    have : (au.type == "textbox") = false := by rw [hau]; decide
    simp [applyLoadOverrides, this]
  refine ⟨hsave, ?_, ?_⟩
  · rw [hsave]
    intro o ho
    simp only [List.mem_cons, List.not_mem_nil, or_false] at ho
    rcases ho with h | h | h <;> subst h <;> assumption
  · rw [hsave]
    simp [loadCanvas, loadMigrate, hscan, a1, a2, a3]

/-- A concrete witness for C5: a three-element document round-trips intact
through save and load. -/
theorem serialize_load_round_trip_witness :
    (let page : JObj := { type := "rect", left := 40, top := 40, width := 1530,
                          selectable := false, evented := false, isPageBg := true }
     let tb : JObj := { type := "textbox", left := 210, top := 90, width := 260,
                        lockedWidth := some 260 }
     let img : JObj := { type := "image", left := 120, top := 150, width := 400 }
     let au : JObj := { type := "rect", left := 90, top := 60, width := 300,
                        isAudio := true, audioId := some 5, overlayId := some 7 }
     let resolver : ℕ → Option String := fun i => if i == 5 then some "data:audio/mpeg" else none
     saveBlob [page, tb, img, au] = [tb, img, au] ∧
     (loadCanvas resolver page (saveBlob [page, tb, img, au])).1 = [page, tb, img, au]) := by
  have h := serialize_load_round_trip
    (fun i => if i == 5 then some "data:audio/mpeg" else none)
    { type := "rect", left := 40, top := 40, width := 1530,
      selectable := false, evented := false, isPageBg := true }
    { type := "textbox", left := 210, top := 90, width := 260, lockedWidth := some 260 }
    { type := "image", left := 120, top := 150, width := 400 }
    { type := "rect", left := 90, top := 60, width := 300,
      isAudio := true, audioId := some 5, overlayId := some 7 }
    260 rfl rfl rfl rfl (by norm_num) rfl rfl rfl rfl rfl
  exact ⟨h.1, h.2.2⟩

/-- An audio anchor whose payload reference 5 will fail to resolve. -/
def exAu5 : JObj :=
  { type := "rect", left := 90, top := 60, width := 300,
    isAudio := true, audioId := some 5, overlayId := some 7 }

/-- The live page rect used in the load examples. -/
def exPage : JObj :=
  { type := "rect", left := 40, top := 40, width := 1530,
    selectable := false, evented := false, isPageBg := true }

/-- C9 as stated is false: when the stored audio reference cannot be
resolved, the anchor element is NOT omitted from the restored canvas — it is
restored like any other element; only its playback overlay is dropped. -/
theorem load_missing_audio_element_retained :
    (loadCanvas (fun _ => none) exPage [exAu5]).1 = [exPage, exAu5] ∧
    (loadCanvas (fun _ => none) exPage [exAu5]).2 = [] := by
  constructor <;> rfl

/-- C9 amended: when a stored payload reference cannot be resolved, the
corresponding element still appears on the restored canvas (the object list
does not depend on the resolver at all); what is omitted is the element's
playback overlay — every session-audio entry produced by the load comes from
a reference the collaborator successfully resolved — and the rest of the
load completes normally. -/
theorem load_missing_audio_overlay_omitted (resolver : ℕ → Option String)
    (page : JObj) (blob : List JObj) :
    (loadCanvas resolver page blob).1 = (loadCanvas (fun _ => none) page blob).1 ∧
    (∀ e ∈ (loadCanvas resolver page blob).2,
      ∃ o ∈ (loadMigrate blob).map applyLoadOverrides, ∃ i : ℕ,
        o.audioId = some i ∧ resolver i = some e.2 ∧ e.1 = o.overlayId) := by
  by_cases hb : blob.isEmpty
  · refine ⟨by simp [loadCanvas, hb], ?_⟩
    intro e he
    simp [loadCanvas, hb] at he
  · refine ⟨by simp [loadCanvas, hb], ?_⟩
    intro e he
    simp only [loadCanvas, hb, Bool.false_eq_true, if_false] at he
    rw [loadOverlays, List.mem_filterMap] at he
    obtain ⟨o, ho, hfo⟩ := he
    refine ⟨o, ho, ?_⟩
    by_cases ha : (o.isAudio && jsTruthyNat o.audioId) = true
    · rw [if_pos ha] at hfo
      cases haid : o.audioId with
      | none => rw [haid] at hfo; exact absurd hfo (by simp)
      | some i =>
        rw [haid] at hfo
        have hfo' : (resolver i).map (fun url => (o.overlayId, url)) = some e := hfo
        cases hres : resolver i with
        | none => rw [hres] at hfo'; exact absurd hfo' (by simp)
        | some url =>
          rw [hres] at hfo'
          simp only [Option.map_some', Option.some.injEq] at hfo'
          subst hfo'
          exact ⟨i, rfl, hres, rfl⟩
    · rw [if_neg ha] at hfo
      exact absurd hfo (by simp)

/-- A concrete witness for the amended C9: with one resolvable and one
unresolvable anchor, the restored object list is the same as with a resolver
that fails everywhere, and the single produced overlay comes from the
resolvable reference. -/
theorem load_missing_audio_overlay_omitted_witness :
    (let au9 : JObj := { type := "rect", left := 120, top := 150, width := 300,
                         isAudio := true, audioId := some 9, overlayId := some 8 }
     let resolver : ℕ → Option String := fun i => if i == 5 then some "data:audio/mpeg" else none
     (loadCanvas resolver exPage [exAu5, au9]).1 =
       (loadCanvas (fun _ => none) exPage [exAu5, au9]).1 ∧
     (∃ o ∈ (loadMigrate [exAu5, au9]).map applyLoadOverrides, ∃ i : ℕ,
        o.audioId = some i ∧ resolver i = some "data:audio/mpeg" ∧
        (some 7 : Option ℕ) = o.overlayId)) := by
  refine ⟨(load_missing_audio_overlay_omitted _ exPage _).1, ?_⟩
  exact (load_missing_audio_overlay_omitted
    (fun i => if i == 5 then some "data:audio/mpeg" else none) exPage
    [exAu5, { type := "rect", left := 120, top := 150, width := 300,
              isAudio := true, audioId := some 9, overlayId := some 8 }]).2
    (some 7, "data:audio/mpeg") (by decide)

/-- A legacy page rect whose left already equals the margin but whose top
does not. -/
def exPgTopOnly : JObj :=
  { type := "rect", left := 40, top := 100, width := 1530,
    selectable := false, evented := false, isPageBg := true }

/-- An ordinary element stored at (90, 60). -/
def exElem : JObj := { type := "textbox", left := 90, top := 60, width := 240 }

/-- C10 as stated is false: with a legacy page rect at (40, 100) — top
differs from the margin while left does not — the code performs no
translation at all, although the claimed uniform delta
`(PAGE_MARGIN - 40, PAGE_MARGIN - 100) = (0, -60)` is nonzero. -/
theorem page_migration_counterexample :
    loadMigrate [exPgTopOnly, exElem] = [exElem] ∧
    translate (PAGE_MARGIN - exPgTopOnly.left) (PAGE_MARGIN - exPgTopOnly.top) exElem ≠
      exElem := by
  constructor
  · rfl
  · intro h
    have := congrArg JObj.top h
    norm_num [translate, exElem, exPgTopOnly, PAGE_MARGIN] at this

theorem scanPages_snd (bl : List JObj) :
    (scanPages bl).2 = bl.filter (fun o => !isPageRect o) := by
  induction bl with
  | nil => rfl
  | cons o rest ih => by_cases h : isPageRect o <;> simp [scanPages, h, ih]

theorem isPageRect_translate (dx dy : ℚ) (o : JObj) :
    isPageRect (translate dx dy o) = isPageRect o := rfl

/-- C10 amended: all page rects are stripped from the loaded list, and the
uniform translation by `(PAGE_MARGIN - oldPageLeft, PAGE_MARGIN - oldPageTop)`
— which preserves all pairwise relative positions — is applied exactly when
the first page rect's LEFT differs from the margin; when the left already
equals the margin, no translation happens even if the top differs. -/
theorem page_migration_translation (blob : List JObj) (l t : ℚ)
    (h : (scanPages blob).1 = some (l, t)) :
    (scanPages blob).2 = blob.filter (fun o => !isPageRect o) ∧
    (l ≠ PAGE_MARGIN →
      loadMigrate blob =
        ((scanPages blob).2).map (translate (PAGE_MARGIN - l) (PAGE_MARGIN - t))) ∧
    (l = PAGE_MARGIN → loadMigrate blob = (scanPages blob).2) ∧
    (∀ o ∈ loadMigrate blob, isPageRect o = false) ∧
    (∀ a b : JObj,
      (translate (PAGE_MARGIN - l) (PAGE_MARGIN - t) a).left -
        (translate (PAGE_MARGIN - l) (PAGE_MARGIN - t) b).left = a.left - b.left ∧
      (translate (PAGE_MARGIN - l) (PAGE_MARGIN - t) a).top -
        (translate (PAGE_MARGIN - l) (PAGE_MARGIN - t) b).top = a.top - b.top) := by
  have hsp : scanPages blob = (some (l, t), (scanPages blob).2) := by
    rw [← h]
  have hmig : loadMigrate blob =
      if l ≠ PAGE_MARGIN then
        ((scanPages blob).2).map (translate (PAGE_MARGIN - l) (PAGE_MARGIN - t))
      else (scanPages blob).2 := by
    rw [loadMigrate, hsp]
  refine ⟨scanPages_snd blob, ?_, ?_, ?_, ?_⟩
  · intro hl; rw [hmig, if_pos hl]
  · intro hl; rw [hmig, if_neg (by simp [hl])]
  · intro o ho
    rw [hmig] at ho
    by_cases hl : l = PAGE_MARGIN
    · rw [if_neg (by simp [hl])] at ho
      rw [scanPages_snd] at ho
      simpa using (List.of_mem_filter ho)
    · rw [if_pos hl] at ho
      rw [List.mem_map] at ho
      obtain ⟨a, ha, rfl⟩ := ho
      rw [isPageRect_translate]
      rw [scanPages_snd] at ha
      simpa using (List.of_mem_filter ha)
  · intro a b
    refine ⟨?_, ?_⟩ <;> simp [translate]

/-- A concrete witness for the amended C10: a legacy page at (10, 70) forces
the uniform shift (30, -30) on every loaded element, and the page rect
itself is gone. -/
theorem page_migration_translation_witness :
    (let pgOld : JObj := { type := "rect", left := 10, top := 70, width := 1530,
                           selectable := false, evented := false, isPageBg := true }
     loadMigrate [pgOld, exElem] =
       ((scanPages [pgOld, exElem]).2).map
         (translate (PAGE_MARGIN - 10) (PAGE_MARGIN - 70))) := by
  exact (page_migration_translation _ 10 70 (by rfl)).2.1 (by norm_num [PAGE_MARGIN])

/-! ### Debounced auto-save (`saveCanvas` lines 910-932, `triggerSave`
lines 1144-1149) -/

/-- The debounce quiet period: 1500 ms, in seconds. -/
def DEBOUNCE : ℚ := 3/2

/-- State of the auto-save machinery: the live document (canvas objects),
the single pending-timer slot held in `saveTimerRef` (its scheduled firing
time), and the save requests issued so far, each carrying the blob
serialized at firing time. -/
structure SaveSim where
  doc : List JObj
  pending : Option ℚ
  requests : List (List JObj)
deriving DecidableEq, Repr

/-- The event loop reaching time `now`: a pending timer due by `now` fires,
serializing the CURRENT document (`canvas.toJSON` runs inside the timeout
callback) and clearing the slot. -/
def fireDue (now : ℚ) (s : SaveSim) : SaveSim :=
  match s.pending with
  | some tf =>
    if tf ≤ now then { s with pending := none, requests := s.requests ++ [saveBlob s.doc] }
    else s
  | none => s

/-- A dirty-triggering event at time `e.1` mutating the document to `e.2`:
any timer already due fires first; then the mutation is applied and
`saveCanvas` runs — `clearTimeout` on the pending slot followed by a fresh
`setTimeout`, i.e. the slot is unconditionally replaced with
`e.1 + DEBOUNCE`. -/
def dirtyEvent (s : SaveSim) (e : ℚ × List JObj) : SaveSim :=
  let s1 := fireDue e.1 s
  { s1 with doc := e.2, pending := some (e.1 + DEBOUNCE) }

/-- Processing a sequence of dirty events in order. -/
def runEvents (s : SaveSim) (evts : List (ℚ × List JObj)) : SaveSim :=
  evts.foldl dirtyEvent s

/-- Letting time run past every scheduled timer after the last event. -/
def flushPending (s : SaveSim) : SaveSim :=
  match s.pending with
  | some _ => { s with pending := none, requests := s.requests ++ [saveBlob s.doc] }
  | none => s

/-- `isBurstFrom t0 evts`: the events strictly follow `t0` and each gap —
from `t0` to the first event and between consecutive events — is shorter
than the debounce window. -/
def isBurstFrom : ℚ → List (ℚ × List JObj) → Bool
  | _, [] => true
  | t0, e :: rest => (decide (t0 < e.1) && decide (e.1 < t0 + DEBOUNCE)) && isBurstFrom e.1 rest

/-- The document state after the last event of the list (`d` if none). -/
def lastDoc (d : List JObj) (evts : List (ℚ × List JObj)) : List JObj :=
  evts.foldl (fun _ e => e.2) d

/-- The time of the last event of the list (`t` if none). -/
def lastTime (t : ℚ) (evts : List (ℚ × List JObj)) : ℚ :=
  evts.foldl (fun _ e => e.1) t

theorem runEvents_burst (rest : List (ℚ × List JObj)) :
    ∀ (t0 : ℚ) (d : List JObj) (R : List (List JObj)),
      isBurstFrom t0 rest = true →
      runEvents ⟨d, some (t0 + DEBOUNCE), R⟩ rest =
        ⟨lastDoc d rest, some (lastTime t0 rest + DEBOUNCE), R⟩ := by
  induction rest with
  | nil => intro t0 d R _; rfl
  | cons e rest ih =>
    intro t0 d R hb
    simp only [isBurstFrom, Bool.and_eq_true, decide_eq_true_eq] at hb
    obtain ⟨⟨h1, h2⟩, h3⟩ := hb
    have hfire : fireDue e.1 ⟨d, some (t0 + DEBOUNCE), R⟩ = ⟨d, some (t0 + DEBOUNCE), R⟩ := by
      rw [fireDue]
      exact if_neg (not_le.mpr h2)
    have hstep : dirtyEvent ⟨d, some (t0 + DEBOUNCE), R⟩ e =
        ⟨e.2, some (e.1 + DEBOUNCE), R⟩ := by
      rw [dirtyEvent]
      rw [hfire]
    rw [runEvents, List.foldl_cons, hstep, ← runEvents, ih e.1 e.2 R h3]
    rfl

/-- C6: for a burst of `N ≥ 1` dirty events each separated by less than the
debounce window, exactly one save request is issued once the burst settles,
its payload is the blob of the document state after the last event, and
every dirty event unconditionally replaces the pending-timer slot (it never
accumulates a second timer). -/
theorem debounce_coalesces_burst (d0 : List JObj) (e : ℚ × List JObj)
    (rest : List (ℚ × List JObj)) (hb : isBurstFrom e.1 rest = true) :
    (flushPending (runEvents ⟨d0, none, []⟩ (e :: rest))).requests =
      [saveBlob (lastDoc e.2 rest)] ∧
    (flushPending (runEvents ⟨d0, none, []⟩ (e :: rest))).doc = lastDoc e.2 rest ∧
    (∀ (s : SaveSim) (ev : ℚ × List JObj),
      (dirtyEvent s ev).pending = some (ev.1 + DEBOUNCE)) := by
  have hstep : dirtyEvent ⟨d0, none, []⟩ e = ⟨e.2, some (e.1 + DEBOUNCE), []⟩ := rfl
  have hrun : runEvents ⟨d0, none, []⟩ (e :: rest) =
      ⟨lastDoc e.2 rest, some (lastTime e.1 rest + DEBOUNCE), []⟩ := by
    rw [runEvents, List.foldl_cons, hstep, ← runEvents, runEvents_burst rest e.1 e.2 [] hb]
  rw [hrun]
  exact ⟨rfl, rfl, fun s ev => rfl⟩

/-- A concrete witness for C6: three dirty events at t = 0, 1, 2 (gaps of
1 s, inside the 1.5 s window) issue exactly one request carrying the
document after the third event. -/
theorem debounce_coalesces_burst_witness :
    (let o1 : JObj := { type := "textbox", left := 210, top := 90, width := 240 }
     let o2 : JObj := { type := "image", left := 120, top := 150, width := 400 }
     (flushPending (runEvents ⟨[], none, []⟩
        [(0, [o1]), (1, [o1, o2]), (2, [o2])])).requests = [saveBlob [o2]]) := by
  have h := debounce_coalesces_burst []
    (0, [{ type := "textbox", left := 210, top := 90, width := 240 }])
    [(1, [{ type := "textbox", left := 210, top := 90, width := 240 },
          { type := "image", left := 120, top := 150, width := 400 }]),
     (2, [{ type := "image", left := 120, top := 150, width := 400 }])]
    (by norm_num [isBurstFrom, DEBOUNCE])
  exact h.1

/-! ### Delete/backspace handler (`handleKeyDown`, lines 1159-1173) -/

/-- The slice of a canvas object the delete handler inspects: its identity
and whether it is in active text-edit mode. -/
structure DelObj where
  oid : ℕ
  isEditing : Bool
deriving DecidableEq, Repr

/-- Canvas state for the delete handler: the element list and the current
active selection (by id). -/
structure DelCanvas where
  objects : List DelObj
  activeIds : List ℕ
deriving DecidableEq, Repr

/-- `canvas.getActiveObjects()`. -/
def getActiveObjects (c : DelCanvas) : List DelObj :=
  c.objects.filter (fun o => c.activeIds.contains o.oid)

/-- `canvas.getActiveObject()?.isEditing`: with a single selected object this
is that object's editing flag; with a multi-selection the active object is
an ActiveSelection, whose missing `isEditing` is falsy. -/
def activeObjectIsEditing (c : DelCanvas) : Bool :=
  match c.activeIds with
  | [i] => ((c.objects.find? (fun o => o.oid == i)).map (fun o => o.isEditing)).getD false
  | _ => false

/-- The Delete/Backspace keydown handler (lines 1161-1170): other keys are
ignored; an editing active object or an empty selection returns early;
otherwise the selected objects are removed and the selection discarded. -/
def handleKeyDown (key : String) (c : DelCanvas) : DelCanvas :=
  if key != "Delete" && key != "Backspace" then c
  else if activeObjectIsEditing c then c
  else if (getActiveObjects c).isEmpty then c
  else { objects := c.objects.filter (fun o => !(c.activeIds.contains o.oid)),
         activeIds := [] }

/-- C8: pressing Delete or Backspace while the active object is in text-edit
mode is a silent no-op — the handler returns without removing anything (no
error is possible: the handler is a total function), so the element set is
unchanged. -/
theorem delete_rejected_while_editing (key : String) (c : DelCanvas)
    (hk : key = "Delete" ∨ key = "Backspace")
    (hE : activeObjectIsEditing c = true) :
    handleKeyDown key c = c ∧ (handleKeyDown key c).objects = c.objects := by
  have hkey : (key != "Delete" && key != "Backspace") = false := by
    rcases hk with h | h <;> subst h <;> decide
  have : handleKeyDown key c = c := by
    rw [handleKeyDown, hkey]
    simp [hE]
  exact ⟨this, by rw [this]⟩

/-- A concrete witness for C8: deleting while the single selected textbox is
editing leaves the canvas untouched. -/
theorem delete_rejected_while_editing_witness :
    handleKeyDown "Delete" ⟨[⟨1, true⟩, ⟨2, false⟩], [1]⟩ =
      (⟨[⟨1, true⟩, ⟨2, false⟩], [1]⟩ : DelCanvas) :=
  (delete_rejected_while_editing "Delete" ⟨[⟨1, true⟩, ⟨2, false⟩], [1]⟩
    (Or.inl rfl) (by decide)).1

end Journal
